import Mathlib

/-!
Verification of the in-memory Item store of `src/main.py`.

The store is a module-level Python list `items_db` of pydantic `Item`
records.  Five HTTP handlers operate on it: `get_items`, `get_item`,
`create_item`, `update_item`, `delete_item`.  We embed the store as a
`List Item`, each handler as a pure function that returns its response
together with the store state after the call, and the Python exceptions
(`HTTPException(404, "Item non trouvé")` raised by the handlers, and the
`ValueError` that `max([])` raises inside `create_item`) as an explicit
error type.
-/

namespace ItemApi

/-- The pydantic model `Item` of `src/main.py`: `id` is `Optional[int]`
defaulting to `None`, `description` is `Optional[str]` defaulting to
`None`, and `in_stock` is a `bool` defaulting to `True`. -/
structure Item where
  id : Option Int := none
  name : String
  description : Option String := none
  price : Float
  in_stock : Bool := true

/-- Errors a handler can surface: an `HTTPException(status, detail)` or
the `ValueError` raised by Python `max` on an empty sequence. -/
inductive ApiError where
  | http (status : Nat) (detail : String)
  | valueError
deriving DecidableEq

/-- The 404 error every handler raises on a missing id. -/
def notFoundError : ApiError := ApiError.http 404 "Item non trouvé"

/-- The seed store `items_db` of `src/main.py`. -/
def items_db : List Item :=
  [ { id := some 1, name := "Laptop", description := some "Un ordinateur portable",
      price := 999.99, in_stock := true },
    { id := some 2, name := "Mouse", description := some "Une souris sans fil",
      price := 29.99, in_stock := true },
    { id := some 3, name := "Keyboard", description := some "Un clavier mécanique",
      price := 149.99, in_stock := false } ]

/-- Handler `GET /items`: with no filter returns the whole store, with a
filter returns the comprehension `[item for item in items_db if
item.in_stock == in_stock]`.  It never mutates the store. -/
def get_items (db : List Item) (in_stock : Option Bool) : List Item :=
  match in_stock with
  | none => db
  | some b => db.filter (fun it => it.in_stock == b)

/-- Handler `GET /items/{item_id}`: the Python `for` loop returns the
first item whose `id` equals `item_id`, else raises the 404. -/
def get_item (db : List Item) (item_id : Int) : Except ApiError Item :=
  match db with
  | [] => Except.error notFoundError
  | it :: rest =>
    if it.id = some item_id then Except.ok it else get_item rest item_id

/-- Python truthiness of an `Optional[int]` value, as tested by the
comprehension `[i.id for i in items_db if i.id]`: `None` and `0` are
falsy, every other integer is truthy. -/
def pyTruthy : Option Int → Bool
  | none => false
  | some n => n != 0

/-- Handler `POST /items`: computes
`max([i.id for i in items_db if i.id]) + 1 if items_db else 1`,
writes it into the item, appends the item and returns it.  When the
store is non-empty but the truthy-id comprehension is empty, Python
`max([])` raises `ValueError` and the store is left unchanged. -/
def create_item (db : List Item) (item : Item) :
    Except ApiError Item × List Item :=
  if db.isEmpty then
    let stored := { item with id := some 1 }
    (Except.ok stored, db ++ [stored])
  else
    match ((db.filter (fun i => pyTruthy i.id)).filterMap Item.id).max? with
    | none => (Except.error ApiError.valueError, db)
    | some m =>
      let stored := { item with id := some (m + 1) }
      (Except.ok stored, db ++ [stored])

/-- Handler `PUT /items/{item_id}`: the loop over `enumerate(items_db)`
overwrites, at the first index whose item has the requested id, the slot
with the payload whose `id` field was forced to `item_id`; on no match
it raises the 404 and the store is unchanged. -/
def update_item (db : List Item) (item_id : Int) (upd : Item) :
    Except ApiError Item × List Item :=
  match db with
  | [] => (Except.error notFoundError, [])
  | it :: rest =>
    if it.id = some item_id then
      let stored := { upd with id := some item_id }
      (Except.ok stored, stored :: rest)
    else
      let r := update_item rest item_id upd
      (r.1, it :: r.2)

/-- Handler `DELETE /items/{item_id}`: pops the first index whose item
has the requested id and returns a confirmation message; on no match it
raises the 404 and the store is unchanged. -/
def delete_item (db : List Item) (item_id : Int) :
    Except ApiError String × List Item :=
  match db with
  | [] => (Except.error notFoundError, [])
  | it :: rest =>
    if it.id = some item_id then
      (Except.ok s!"Item {item_id} supprimé avec succès", rest)
    else
      let r := delete_item rest item_id
      (r.1, it :: r.2)

/-- A store operation: List, Get, Create, Update or Delete. -/
inductive Op where
  | list (f : Option Bool)
  | get (item_id : Int)
  | create (it : Item)
  | update (item_id : Int) (it : Item)
  | delete (item_id : Int)

/-- A response from one operation. -/
inductive Response where
  | listing (l : List Item)
  | item (r : Except ApiError Item)
  | message (r : Except ApiError String)

/-- Running one operation against the store: the response paired with
the store state after the call. -/
def run (db : List Item) : Op → Response × List Item
  | Op.list f => (Response.listing (get_items db f), db)
  | Op.get i => (Response.item (get_item db i), db)
  | Op.create it =>
    let r := create_item db it
    (Response.item r.1, r.2)
  | Op.update i it =>
    let r := update_item db i it
    (Response.item r.1, r.2)
  | Op.delete i =>
    let r := delete_item db i
    (Response.message r.1, r.2)

/-- The store state after a sequence of operations. -/
def exec (db : List Item) (ops : List Op) : List Item :=
  ops.foldl (fun s op => (run s op).2) db

/-- The store invariant stated by the spec: every stored item has a
non-null id, and ids are pairwise distinct. -/
def inv (db : List Item) : Prop :=
  (∀ it ∈ db, it.id ≠ none) ∧ (db.map Item.id).Nodup

/-- Modelled from the spec: the id `Create` must assign, namely
`max(existing ids, default 0) + 1` — so `1` on an empty store. -/
def specNewId (db : List Item) : Int :=
  ((db.filterMap Item.id).max?).getD 0 + 1

/-- Boolean test that an optional id is present and positive. -/
def idPos : Option Int → Bool
  | none => false
  | some n => decide (0 < n)

/-- Strengthened invariant used for the reachability induction: every
stored id is present and positive, and the ids are pairwise distinct. -/
def strongInv (db : List Item) : Prop :=
  (∀ it ∈ db, idPos it.id = true) ∧ (db.map Item.id).Nodup

/-- A POST payload carrying no id, like the body used by the tests. -/
def probeItem : Item := { name := "Monitor", price := 399.99 }

/-- A PUT payload that does carry an id, to be overwritten. -/
def bogusPayload : Item :=
  { id := some 77, name := "Gaming Laptop", price := 1499.99 }

/-- A store holding a single item whose id is the Python-falsy `0`. -/
def dbZeroA : List Item := [{ id := some 0, name := "Zero", price := 1.0 }]

/-- A second store with a single zero-id item. -/
def dbZeroB : List Item := [{ id := some 0, name := "Widget", price := 2.5 }]

/-- A third store with a single zero-id item. -/
def dbZeroC : List Item := [{ id := some 0, name := "Cable", price := 3.0 }]

/-- A PUT body in which the `in_stock` field is absent: pydantic fills
the declared default `True`, exactly as the `Item` model declares. -/
def payloadNoStock (pid : Option Int) (nm : String) (ds : Option String)
    (pr : Float) : Item :=
  { id := pid, name := nm, description := ds, price := pr }

theorem get_item_not_found (db : List Item) (i : Int)
    (h : ∀ it ∈ db, it.id ≠ some i) :
    get_item db i = Except.error notFoundError := by
  induction db with
  | nil => rfl
  | cons hd tl ih =>
    have hhd : hd.id ≠ some i := h hd (List.mem_cons_self hd tl)
    rw [get_item, if_neg hhd]
    exact ih fun it hit => h it (List.mem_cons_of_mem hd hit)

theorem update_item_not_found (db : List Item) (i : Int) (u : Item)
    (h : ∀ it ∈ db, it.id ≠ some i) :
    update_item db i u = (Except.error notFoundError, db) := by
  induction db with
  | nil => rfl
  | cons hd tl ih =>
    have hhd : hd.id ≠ some i := h hd (List.mem_cons_self hd tl)
    rw [update_item, if_neg hhd, ih fun it hit => h it (List.mem_cons_of_mem hd hit)]

theorem delete_item_not_found (db : List Item) (i : Int)
    (h : ∀ it ∈ db, it.id ≠ some i) :
    delete_item db i = (Except.error notFoundError, db) := by
  induction db with
  | nil => rfl
  | cons hd tl ih =>
    have hhd : hd.id ≠ some i := h hd (List.mem_cons_self hd tl)
    rw [delete_item, if_neg hhd, ih fun it hit => h it (List.mem_cons_of_mem hd hit)]

theorem update_item_found (db : List Item) (i : Int) (u : Item)
    (h : ∃ it ∈ db, it.id = some i) :
    ∃ pre hit post,
      db = pre ++ hit :: post ∧ (∀ p ∈ pre, p.id ≠ some i) ∧ hit.id = some i ∧
      update_item db i u =
        (Except.ok { u with id := some i },
         pre ++ { u with id := some i } :: post) := by
  induction db with
  | nil => simp at h
  | cons hd tl ih =>
    by_cases hhd : hd.id = some i
    · exact ⟨[], hd, tl, rfl, by simp, hhd, by rw [update_item, if_pos hhd]; rfl⟩
    · have h2 : ∃ it ∈ tl, it.id = some i := by
        rcases h with ⟨it, hmem, hid⟩
        rcases List.mem_cons.mp hmem with rfl | hmem2
        · exact absurd hid hhd
        · exact ⟨it, hmem2, hid⟩
      rcases ih h2 with ⟨pre, hit, post, hdb, hpre, hhit, hupd⟩
      refine ⟨hd :: pre, hit, post, by rw [hdb]; rfl, ?_, hhit, ?_⟩
      · intro p hp
        rcases List.mem_cons.mp hp with rfl | hp2
        · exact hhd
        · exact hpre p hp2
      · rw [update_item, if_neg hhd, hupd]; rfl

theorem delete_item_found (db : List Item) (i : Int)
    (h : ∃ it ∈ db, it.id = some i) :
    ∃ pre hit post,
      db = pre ++ hit :: post ∧ (∀ p ∈ pre, p.id ≠ some i) ∧ hit.id = some i ∧
      delete_item db i =
        (Except.ok s!"Item {i} supprimé avec succès", pre ++ post) := by
  induction db with
  | nil => simp at h
  | cons hd tl ih =>
    by_cases hhd : hd.id = some i
    · exact ⟨[], hd, tl, rfl, by simp, hhd, by rw [delete_item, if_pos hhd]; rfl⟩
    · have h2 : ∃ it ∈ tl, it.id = some i := by
        rcases h with ⟨it, hmem, hid⟩
        rcases List.mem_cons.mp hmem with rfl | hmem2
        · exact absurd hid hhd
        · exact ⟨it, hmem2, hid⟩
      rcases ih h2 with ⟨pre, hit, post, hdb, hpre, hhit, hdel⟩
      refine ⟨hd :: pre, hit, post, by rw [hdb]; rfl, ?_, hhit, ?_⟩
      · intro p hp
        rcases List.mem_cons.mp hp with rfl | hp2
        · exact hhd
        · exact hpre p hp2
      · rw [delete_item, if_neg hhd, hdel]; rfl

theorem le_of_mem_max? {l : List Int} {x m : Int} (hx : x ∈ l)
    (hm : l.max? = some m) : x ≤ m := by
  have : Std.Antisymm (α := Int) (· ≤ ·) := ⟨fun h h2 => le_antisymm h h2⟩
  rw [List.max?_eq_some_iff] at hm
  · exact hm.2 x hx
  all_goals simp [le_total]

theorem mem_of_max? {l : List Int} {m : Int} (hm : l.max? = some m) : m ∈ l := by
  have : Std.Antisymm (α := Int) (· ≤ ·) := ⟨fun h h2 => le_antisymm h h2⟩
  rw [List.max?_eq_some_iff] at hm
  · exact hm.1
  all_goals simp [le_total]

theorem ids_ne_nil {db : List Item} (hne : db ≠ [])
    (hids : ∀ it ∈ db, it.id ≠ none) : db.filterMap Item.id ≠ [] := by
  match db with
  | [] => exact absurd rfl hne
  | hd :: tl =>
    match hhd : hd.id with
    | none => exact absurd hhd (hids hd (List.mem_cons_self hd tl))
    | some n => simp [List.filterMap_cons, hhd]

/-- When every stored id is non-null and non-zero, `create_item` agrees
with the id formula of the spec: it succeeds, and appends the item with
id `specNewId db`. -/
theorem create_item_ok (db : List Item) (item : Item)
    (hids : ∀ it ∈ db, it.id ≠ none) (hz : ∀ it ∈ db, it.id ≠ some 0) :
    create_item db item =
      (Except.ok { item with id := some (specNewId db) },
       db ++ [{ item with id := some (specNewId db) }]) := by
  match hdb : db with
  | [] => rfl
  | hd :: tl =>
    rw [create_item]
    have hemp : (hd :: tl).isEmpty = false := rfl
    rw [hemp]
    have hfil : (hd :: tl).filter (fun i => pyTruthy i.id) = hd :: tl := by
      rw [List.filter_eq_self]
      intro a ha
      match hid : a.id with
      | none => exact absurd hid (hids a ha)
      | some n =>
        have hn0 : n ≠ 0 := by
          intro h0
          exact hz a ha (hid.trans (by rw [h0]))
        simp [pyTruthy, hid, hn0]
    rw [hfil]
    have hne : (hd :: tl).filterMap Item.id ≠ [] :=
      ids_ne_nil (List.cons_ne_nil hd tl) hids
    match hmax : ((hd :: tl).filterMap Item.id).max? with
    | none => exact absurd (List.max?_eq_none_iff.mp hmax) hne
    | some m =>
      have hspec : specNewId (hd :: tl) = m + 1 := by
        rw [specNewId, hmax]
        rfl
      rw [hspec]
      rfl

/-- The id that the spec assigns to a newly created item is distinct
from every id already in the store. -/
theorem specNewId_fresh (db : List Item) :
    ∀ it ∈ db, it.id ≠ some (specNewId db) := by
  intro it hit heq
  have hk : specNewId db ∈ db.filterMap Item.id :=
    List.mem_filterMap.mpr ⟨it, hit, heq⟩
  have hne : db.filterMap Item.id ≠ [] := by
    intro hnil
    rw [hnil] at hk
    exact List.not_mem_nil _ hk
  match hmax : (db.filterMap Item.id).max? with
  | none => exact absurd (List.max?_eq_none_iff.mp hmax) hne
  | some m =>
    have hle : specNewId db ≤ m := le_of_mem_max? hk hmax
    have : specNewId db = m + 1 := by rw [specNewId, hmax]; rfl
    omega

/-- Looking up an id that no element of the prefix carries finds the
appended element. -/
theorem get_item_append (db : List Item) (u : Item) (n : Int)
    (h : ∀ it ∈ db, it.id ≠ some n) (hu : u.id = some n) :
    get_item (db ++ [u]) n = Except.ok u := by
  induction db with
  | nil => rw [List.nil_append, get_item, if_pos hu]
  | cons hd tl ih =>
    have hhd : hd.id ≠ some n := h hd (List.mem_cons_self hd tl)
    rw [List.cons_append, get_item, if_neg hhd]
    exact ih fun it hit => h it (List.mem_cons_of_mem hd hit)

theorem idPos_elim {o : Option Int} (h : idPos o = true) :
    ∃ n, o = some n ∧ 0 < n := by
  match o with
  | none => simp [idPos] at h
  | some n => exact ⟨n, rfl, by simpa [idPos] using h⟩

theorem strongInv_ids_ne_none {db : List Item} (h : strongInv db) :
    ∀ it ∈ db, it.id ≠ none := by
  intro it hit heq
  rcases idPos_elim (h.1 it hit) with ⟨n, hn, _⟩
  rw [heq] at hn
  exact Option.noConfusion hn

theorem strongInv_ids_ne_zero {db : List Item} (h : strongInv db) :
    ∀ it ∈ db, it.id ≠ some 0 := by
  intro it hit heq
  rcases idPos_elim (h.1 it hit) with ⟨n, hn, hpos⟩
  rw [heq] at hn
  have h0 : (0 : Int) = n := Option.some.inj hn
  omega

theorem specNewId_not_mem (db : List Item) :
    some (specNewId db) ∉ db.map Item.id := by
  intro hmem
  rcases List.mem_map.mp hmem with ⟨it, hit, hid⟩
  exact specNewId_fresh db it hit hid

theorem specNewId_pos {db : List Item} (h : strongInv db) :
    0 < specNewId db := by
  match hmax : (db.filterMap Item.id).max? with
  | none =>
    rw [specNewId, hmax]
    exact Int.zero_lt_one
  | some m =>
    have hm : m ∈ db.filterMap Item.id := mem_of_max? hmax
    rcases List.mem_filterMap.mp hm with ⟨it, hit, hid⟩
    rcases idPos_elim (h.1 it hit) with ⟨n, hn, hpos⟩
    rw [hid] at hn
    have hnm : m = n := Option.some.inj hn
    rw [specNewId, hmax]
    simp only [Option.getD_some]
    omega

theorem strongInv_create (db : List Item) (item : Item) (h : strongInv db) :
    strongInv (create_item db item).2 := by
  match hdb : db with
  | [] =>
    constructor
    · intro it hit
      rcases List.mem_singleton.mp hit with rfl
      rfl
    · exact List.nodup_singleton _
  | hd :: tl =>
    rw [create_item_ok (hd :: tl) item (strongInv_ids_ne_none h)
      (strongInv_ids_ne_zero h)]
    constructor
    · intro it hit
      rcases List.mem_append.mp hit with hl | hr
      · exact h.1 it hl
      · rcases List.mem_singleton.mp hr with rfl
        show idPos (some (specNewId (hd :: tl))) = true
        have : 0 < specNewId (hd :: tl) := specNewId_pos h
        simp [idPos, this]
    · rw [List.map_append]
      rw [List.nodup_append]
      refine ⟨h.2, List.nodup_singleton _, ?_⟩
      intro x hx hx2
      rcases List.mem_singleton.mp hx2 with rfl
      exact specNewId_not_mem (hd :: tl) hx

theorem strongInv_update (db : List Item) (i : Int) (u : Item)
    (h : strongInv db) : strongInv (update_item db i u).2 := by
  by_cases hex : ∃ it ∈ db, it.id = some i
  · rcases update_item_found db i u hex with ⟨pre, hit, post, hdb, hpre, hhit, hupd⟩
    rw [hupd]
    subst hdb
    constructor
    · intro it hitmem
      rcases List.mem_append.mp hitmem with hl | hr
      · exact h.1 it (List.mem_append.mpr (Or.inl hl))
      · rcases List.mem_cons.mp hr with rfl | hpost
        · show idPos (some i) = true
          have hm := h.1 hit (List.mem_append.mpr (Or.inr (List.mem_cons_self _ _)))
          rw [hhit] at hm
          exact hm
        · exact h.1 it (List.mem_append.mpr (Or.inr (List.mem_cons_of_mem _ hpost)))
    · have hmap : (pre ++ { u with id := some i } :: post).map Item.id =
          (pre ++ hit :: post).map Item.id := by
        simp [List.map_append, hhit]
      rw [hmap]
      exact h.2
  · push_neg at hex
    rw [update_item_not_found db i u hex]
    exact h

theorem strongInv_delete (db : List Item) (i : Int)
    (h : strongInv db) : strongInv (delete_item db i).2 := by
  by_cases hex : ∃ it ∈ db, it.id = some i
  · rcases delete_item_found db i hex with ⟨pre, hit, post, hdb, hpre, hhit, hdel⟩
    rw [hdel]
    subst hdb
    have hsub : (pre ++ post).Sublist (pre ++ hit :: post) :=
      List.Sublist.append_left (List.sublist_cons_self hit post) pre
    constructor
    · intro it hm
      exact h.1 it (hsub.subset hm)
    · exact h.2.sublist (hsub.map Item.id)
  · push_neg at hex
    rw [delete_item_not_found db i hex]
    exact h

theorem strongInv_run (db : List Item) (op : Op) (h : strongInv db) :
    strongInv (run db op).2 := by
  cases op with
  | list f => exact h
  | get i => exact h
  | create it => exact strongInv_create db it h
  | update i it => exact strongInv_update db i it h
  | delete i => exact strongInv_delete db i h

theorem strongInv_exec (db : List Item) (ops : List Op) (h : strongInv db) :
    strongInv (exec db ops) := by
  induction ops generalizing db with
  | nil => exact h
  | cons op rest ih =>
    show strongInv (List.foldl (fun s op => (run s op).2) db (op :: rest))
    rw [List.foldl_cons]
    exact ih _ (strongInv_run db op h)

theorem strongInv_implies_inv (db : List Item) (h : strongInv db) : inv db := by
  refine ⟨?_, h.2⟩
  exact strongInv_ids_ne_none h

theorem strongInv_seed : strongInv items_db := by
  constructor
  · decide
  · decide


theorem get_item_found (db : List Item) (i : Int)
    (h : ∃ it ∈ db, it.id = some i) :
    ∃ v, get_item db i = Except.ok v ∧ v.id = some i := by
  induction db with
  | nil => simp at h
  | cons hd tl ih =>
    by_cases hhd : hd.id = some i
    · exact ⟨hd, by rw [get_item, if_pos hhd], hhd⟩
    · have h2 : ∃ it ∈ tl, it.id = some i := by
        rcases h with ⟨it, hmem, hid⟩
        rcases List.mem_cons.mp hmem with rfl | hmem2
        · exact absurd hid hhd
        · exact ⟨it, hmem2, hid⟩
      rcases ih h2 with ⟨v, hv, hvid⟩
      exact ⟨v, by rw [get_item, if_neg hhd, hv], hvid⟩

theorem length_filter_stock (db : List Item) (b : Bool) :
    (db.filter (fun it => it.in_stock == b)).length +
      (db.filter (fun it => it.in_stock == !b)).length = db.length := by
  have hcong : db.filter (fun it => it.in_stock == !b) =
      db.filter (fun it => !(it.in_stock == b)) := by
    apply List.filter_congr
    intro a _
    cases b <;> cases ha : a.in_stock <;> simp [ha]
  rw [hcong]
  exact (@List.length_eq_length_filter_add Item db (fun it => it.in_stock == b)).symm

/-- C1 (counterexample): on the store `[Item(id=0)]` — which satisfies
the invariant that every stored id is non-null and unique — `create_item`
does not assign `max(existing ids, default 0) + 1 = 1` and does not grow
the store: the comprehension `[i.id for i in items_db if i.id]` drops the
falsy id `0`, so Python `max([])` raises `ValueError` and the store is
left unchanged. -/
theorem C1_counterexample :
    inv dbZeroA ∧
    (create_item dbZeroA probeItem).1 = Except.error ApiError.valueError ∧
    (create_item dbZeroA probeItem).2 = dbZeroA := by
  refine ⟨⟨?_, ?_⟩, rfl, rfl⟩
  · decide
  · decide

/-- C1 (amended: additionally no stored id is `0`): `create_item`
assigns the new item the id `max(existing ids, default 0) + 1` — hence
`1` on an empty store — appends it at the end, grows the store by
exactly one, and returns the stored item carrying the assigned id. -/
theorem C1_create_assigns_next_id (db : List Item) (item : Item)
    (hinv : inv db) (hz : ∀ it ∈ db, it.id ≠ some 0) :
    create_item db item =
      (Except.ok { item with id := some (specNewId db) },
       db ++ [{ item with id := some (specNewId db) }]) ∧
    (create_item db item).2.length = db.length + 1 ∧
    (db = [] → specNewId db = 1) := by
  have hok := create_item_ok db item hinv.1 hz
  refine ⟨hok, ?_, ?_⟩
  · rw [hok]
    simp
  · intro hdb
    subst hdb
    rfl

/-- C1 witness: creating on the seed store assigns id `specNewId
items_db` (that is, `4`) and appends. -/
theorem C1_witness :
    (∀ it ∈ items_db, it.id ≠ some 0) ∧
    specNewId items_db = 4 ∧
    create_item items_db probeItem =
      (Except.ok { probeItem with id := some (specNewId items_db) },
       items_db ++ [{ probeItem with id := some (specNewId items_db) }]) :=
  ⟨by decide, by decide,
    (C1_create_assigns_next_id items_db probeItem ⟨by decide, by decide⟩
      (by decide)).1⟩

/-- C2 (counterexample): from the invariant-satisfying store
`[Item(id=0)]`, `create_item` fails with a `ValueError`, which is not
the NotFound kind and not a validation error, so a third error kind is
reachable in the store itself. -/
theorem C2_counterexample :
    inv dbZeroB ∧
    (create_item dbZeroB probeItem).1 = Except.error ApiError.valueError ∧
    ApiError.valueError ≠ notFoundError := by
  refine ⟨⟨?_, ?_⟩, rfl, ?_⟩
  · decide
  · decide
  · decide

/-- C2 (amended: additionally no stored id is `0`): List always
produces a listing, Get/Update/Delete either succeed or fail with
NotFound only, and Create always succeeds. -/
theorem C2_error_kinds (db : List Item) (i : Int) (u : Item) (f : Option Bool)
    (h : ∀ it ∈ db, it.id ≠ none) (hz : ∀ it ∈ db, it.id ≠ some 0) :
    (∃ l, (run db (Op.list f)).1 = Response.listing l) ∧
    ((∃ v, get_item db i = Except.ok v) ∨
      get_item db i = Except.error notFoundError) ∧
    ((∃ v, (update_item db i u).1 = Except.ok v) ∨
      (update_item db i u).1 = Except.error notFoundError) ∧
    ((∃ v, (delete_item db i).1 = Except.ok v) ∨
      (delete_item db i).1 = Except.error notFoundError) ∧
    (∃ v, (create_item db u).1 = Except.ok v) := by
  refine ⟨⟨get_items db f, rfl⟩, ?_, ?_, ?_, ?_⟩
  · by_cases hex : ∃ it ∈ db, it.id = some i
    · rcases get_item_found db i hex with ⟨v, hv, _⟩
      exact Or.inl ⟨v, hv⟩
    · push_neg at hex
      exact Or.inr (get_item_not_found db i hex)
  · by_cases hex : ∃ it ∈ db, it.id = some i
    · rcases update_item_found db i u hex with ⟨pre, hit, post, _, _, _, hupd⟩
      exact Or.inl ⟨_, by rw [hupd]⟩
    · push_neg at hex
      exact Or.inr (by rw [update_item_not_found db i u hex])
  · by_cases hex : ∃ it ∈ db, it.id = some i
    · rcases delete_item_found db i hex with ⟨pre, hit, post, _, _, _, hdel⟩
      exact Or.inl ⟨_, by rw [hdel]⟩
    · push_neg at hex
      exact Or.inr (by rw [delete_item_not_found db i hex])
  · exact ⟨_, by rw [create_item_ok db u h hz]⟩

/-- C2 witness: the amended statement instantiated on the seed store. -/
theorem C2_witness :
    (∀ it ∈ items_db, it.id ≠ none) ∧ (∀ it ∈ items_db, it.id ≠ some 0) ∧
    ((∃ v, get_item items_db 2 = Except.ok v) ∨
      get_item items_db 2 = Except.error notFoundError) ∧
    (∃ v, (create_item items_db probeItem).1 = Except.ok v) :=
  ⟨by decide, by decide,
    (C2_error_kinds items_db 2 probeItem (some true) (by decide)
        (by decide)).2.1,
    (C2_error_kinds items_db 2 probeItem (some true) (by decide)
        (by decide)).2.2.2.2⟩

/-- C3: starting from the three seed records, every store state
reachable by any sequence of List, Get, Create, Update and Delete
operations satisfies the invariant that every stored item has a
non-null id and that the ids are pairwise distinct. -/
theorem C3_reachable_invariant (ops : List Op) : inv (exec items_db ops) :=
  strongInv_implies_inv _ (strongInv_exec items_db ops strongInv_seed)

/-- C4: when no stored item has the requested id, Get, Update and
Delete each fail with the 404 "Item non trouvé" error and leave the
store exactly unchanged. -/
theorem C4_absent_id_not_found (db : List Item) (i : Int) (u : Item)
    (h : ∀ it ∈ db, it.id ≠ some i) :
    get_item db i = Except.error (ApiError.http 404 "Item non trouvé") ∧
    update_item db i u =
      (Except.error (ApiError.http 404 "Item non trouvé"), db) ∧
    delete_item db i =
      (Except.error (ApiError.http 404 "Item non trouvé"), db) :=
  ⟨get_item_not_found db i h, update_item_not_found db i u h,
    delete_item_not_found db i h⟩

/-- C4 witness: id 999 is absent from the seed store and all three
operations 404 on it, leaving the store unchanged. -/
theorem C4_witness :
    (∀ it ∈ items_db, it.id ≠ some 999) ∧
    get_item items_db 999 =
      Except.error (ApiError.http 404 "Item non trouvé") ∧
    update_item items_db 999 probeItem =
      (Except.error (ApiError.http 404 "Item non trouvé"), items_db) ∧
    delete_item items_db 999 =
      (Except.error (ApiError.http 404 "Item non trouvé"), items_db) :=
  ⟨by decide, (C4_absent_id_not_found items_db 999 probeItem (by decide)).1,
    (C4_absent_id_not_found items_db 999 probeItem (by decide)).2.1,
    (C4_absent_id_not_found items_db 999 probeItem (by decide)).2.2⟩

/-- C5: when some stored item has the requested id, Update replaces the
first such item in place at its original position with the payload, the
stored payload id is forced to the requested id regardless of the id
carried by the payload, and the stored item is returned. -/
theorem C5_update_replaces_in_place (db : List Item) (i : Int) (u : Item)
    (h : ∃ it ∈ db, it.id = some i) :
    ∃ pre hit post,
      db = pre ++ hit :: post ∧ (∀ p ∈ pre, p.id ≠ some i) ∧
      hit.id = some i ∧
      ({ u with id := some i } : Item).id = some i ∧
      update_item db i u =
        (Except.ok { u with id := some i },
         pre ++ { u with id := some i } :: post) := by
  rcases update_item_found db i u h with ⟨pre, hit, post, hdb, hpre, hhit, hupd⟩
  exact ⟨pre, hit, post, hdb, hpre, hhit, rfl, hupd⟩

/-- C5 witness: updating seed id 1 with a payload that carries the
bogus id 77 stores the payload with id forced to 1 at position 0. -/
theorem C5_witness :
    (∃ it ∈ items_db, it.id = some 1) ∧
    ∃ pre hit post,
      items_db = pre ++ hit :: post ∧ (∀ p ∈ pre, p.id ≠ some 1) ∧
      hit.id = some 1 ∧
      ({ bogusPayload with id := some 1 } : Item).id = some 1 ∧
      update_item items_db 1 bogusPayload =
        (Except.ok { bogusPayload with id := some 1 },
         pre ++ { bogusPayload with id := some 1 } :: post) :=
  ⟨by decide, C5_update_replaces_in_place items_db 1 bogusPayload (by decide)⟩

/-- C6: List with no filter returns the whole store in order; List with
filter `b` returns a sublist of the store whose members are exactly the
stored items with `in_stock = b`, and together with the opposite filter
it accounts for every stored item. -/
theorem C6_list_filter_correct (db : List Item) (b : Bool) :
    get_items db none = db ∧
    (get_items db (some b)).Sublist db ∧
    (∀ it, it ∈ get_items db (some b) ↔ it ∈ db ∧ it.in_stock = b) ∧
    (get_items db (some b)).length + (get_items db (some (!b))).length =
      db.length := by
  refine ⟨rfl, List.filter_sublist db, ?_, length_filter_stock db b⟩
  intro it
  show it ∈ db.filter (fun it => it.in_stock == b) ↔ _
  rw [List.mem_filter]
  simp

/-- C7 (counterexample): on the invariant-satisfying store
`[Item(id=0)]`, Create does not succeed at all — the id generation
raises `ValueError` — so the Create-then-Get round trip fails. -/
theorem C7_counterexample :
    inv dbZeroC ∧
    (create_item dbZeroC probeItem).1 = Except.error ApiError.valueError := by
  refine ⟨⟨?_, ?_⟩, rfl⟩
  · decide
  · decide

/-- C7 (amended: additionally no stored id is `0`): Create succeeds,
and Get of the id it returned finds exactly the stored item. -/
theorem C7_create_get_roundtrip (db : List Item) (item : Item)
    (hinv : inv db) (hz : ∀ it ∈ db, it.id ≠ some 0) :
    ∃ stored rest n,
      create_item db item = (Except.ok stored, rest) ∧
      stored.id = some n ∧
      get_item rest n = Except.ok stored := by
  have hok := create_item_ok db item hinv.1 hz
  refine ⟨_, _, specNewId db, hok, rfl, ?_⟩
  exact get_item_append db _ (specNewId db) (specNewId_fresh db) rfl

/-- C7 witness: the round trip on the seed store. -/
theorem C7_witness :
    (∀ it ∈ items_db, it.id ≠ some 0) ∧
    ∃ stored rest n,
      create_item items_db probeItem = (Except.ok stored, rest) ∧
      stored.id = some n ∧
      get_item rest n = Except.ok stored :=
  ⟨by decide,
    C7_create_get_roundtrip items_db probeItem ⟨by decide, by decide⟩
      (by decide)⟩

/-- C8: Update is a full replacement, not a patch: updating a stored
item whose `in_stock` is `false` with a payload that omits `in_stock`
stores an item whose `in_stock` is the default `true`. -/
theorem C8_full_replacement (db : List Item) (i : Int) (pid : Option Int)
    (nm : String) (ds : Option String) (pr : Float)
    (h : ∃ it ∈ db, it.id = some i ∧ it.in_stock = false) :
    (payloadNoStock pid nm ds pr).in_stock = true ∧
    ∃ stored rest,
      update_item db i (payloadNoStock pid nm ds pr) =
        (Except.ok stored, rest) ∧
      stored.in_stock = true ∧ stored.id = some i ∧ stored ∈ rest := by
  have hex : ∃ it ∈ db, it.id = some i := by
    rcases h with ⟨it, hm, hid, _⟩
    exact ⟨it, hm, hid⟩
  rcases update_item_found db i (payloadNoStock pid nm ds pr) hex with
    ⟨pre, hit, post, hdb, hpre, hhit, hupd⟩
  exact ⟨rfl, _, _, hupd, rfl, rfl,
    List.mem_append.mpr (Or.inr (List.mem_cons_self _ _))⟩

/-- C8 witness: seed item 3 (Keyboard) has `in_stock = false`; updating
it with a body omitting `in_stock` stores `in_stock = true`. -/
theorem C8_witness :
    (∃ it ∈ items_db, it.id = some 3 ∧ it.in_stock = false) ∧
    ((payloadNoStock none "Keyboard" none 149.99).in_stock = true ∧
      ∃ stored rest,
        update_item items_db 3 (payloadNoStock none "Keyboard" none 149.99) =
          (Except.ok stored, rest) ∧
        stored.in_stock = true ∧ stored.id = some 3 ∧ stored ∈ rest) :=
  ⟨by decide,
    C8_full_replacement items_db 3 none "Keyboard" none 149.99 (by decide)⟩

/-- C9: when some stored item has the requested id, Delete removes
exactly the first such item, shrinking the store by one, and every
other stored item keeps its value and relative order. -/
theorem C9_delete_removes_first_match (db : List Item) (i : Int)
    (h : ∃ it ∈ db, it.id = some i) :
    ∃ pre hit post,
      db = pre ++ hit :: post ∧ (∀ p ∈ pre, p.id ≠ some i) ∧
      hit.id = some i ∧
      delete_item db i =
        (Except.ok s!"Item {i} supprimé avec succès", pre ++ post) ∧
      (pre ++ post).length + 1 = db.length := by
  rcases delete_item_found db i h with ⟨pre, hit, post, hdb, hpre, hhit, hdel⟩
  refine ⟨pre, hit, post, hdb, hpre, hhit, hdel, ?_⟩
  subst hdb
  simp [List.length_append]
  omega

/-- C9 witness: deleting seed id 2 removes exactly the Mouse record. -/
theorem C9_witness :
    (∃ it ∈ items_db, it.id = some 2) ∧
    ∃ pre hit post,
      items_db = pre ++ hit :: post ∧ (∀ p ∈ pre, p.id ≠ some 2) ∧
      hit.id = some 2 ∧
      delete_item items_db 2 =
        (Except.ok "Item 2 supprimé avec succès", pre ++ post) ∧
      (pre ++ post).length + 1 = items_db.length :=
  ⟨by decide, C9_delete_removes_first_match items_db 2 (by decide)⟩

/-- C10: List and Get are pure reads: for every store state, filter and
id, running them leaves the store exactly unchanged. -/
theorem C10_reads_leave_store_unchanged (db : List Item) (f : Option Bool)
    (i : Int) :
    (run db (Op.list f)).2 = db ∧ (run db (Op.get i)).2 = db :=
  ⟨rfl, rfl⟩

end ItemApi
